import Mathlib

/-!
# Verification of the ALB ingress controller reconciliation core

A shallow embedding, in Lean 4, of the security-group reconciler, the
annotation parsers, the subnet/security-group resolvers and the group
reconcile loop of the aws-load-balancer-controller sources, together with
theorems settling the specification claims about them.

Go conventions carried over: `*string` fields read through `aws.StringValue`
(nil ↦ "") are modelled as plain `String`; `*int64` through `aws.Int64Value`
(nil ↦ 0) as plain `Int`; `(T, error)` returns as `Except String T` or as a
pair with an `Option String` error component; cloud calls are recorded in an
explicit call log, with an environment injecting their outcomes.
-/

namespace GoStr

/-!
Executable models of the Go standard-library string helpers the sources
use (`strings.Split` on a one-character separator, `strings.TrimSpace`,
`strings.HasPrefix`, `strconv.ParseInt` with its error discarded), written
by structural recursion over `String.data` so that concrete inputs
evaluate inside the kernel.
-/

/-- Auxiliary for `split`: `acc` holds the current token reversed. -/
def splitAux (sep : Char) : List Char → List Char → List (List Char)
  | [], acc => [acc.reverse]
  | c :: cs, acc =>
    if c = sep then acc.reverse :: splitAux sep cs []
    else splitAux sep cs (c :: acc)

/-- `strings.Split s sep` for a one-character separator; `split sep "" = [""]`
like its Go counterpart. -/
def split (sep : Char) (s : String) : List String :=
  (splitAux sep s.data []).map (fun cs => String.mk cs)

/-- The whitespace characters `strings.TrimSpace` removes (restricted to
the ASCII ones that occur in annotation values). -/
def isSpaceChar (c : Char) : Bool :=
  c = ' ' || c = '\t' || c = '\n' || c = '\r'

/-- `strings.TrimSpace`. -/
def trim (s : String) : String :=
  String.mk (((s.data.dropWhile isSpaceChar).reverse.dropWhile isSpaceChar).reverse)

/-- Is `pre` a prefix of `l`? -/
def listPrefixEq : List Char → List Char → Bool
  | [], _ => true
  | _ :: _, [] => false
  | a :: as, b :: bs => a = b && listPrefixEq as bs

/-- `strings.HasPrefix`. -/
def hasPrefix (s pre : String) : Bool :=
  listPrefixEq pre.data s.data

/-- Decimal digits to a number, `none` on a non-digit or an empty list. -/
def digitsToNat : List Char → Option Nat
  | [] => none
  | cs => cs.foldl (fun acc c =>
      match acc with
      | none => none
      | some n => if c.isDigit then some (n * 10 + (c.toNat - 48)) else none) (some 0)

/-- `strconv.ParseInt (base 10)` with the error discarded: the Go callers
write `p, _ := strconv.ParseInt(...)`, so a malformed token yields 0. -/
def parseIntOrZero (s : String) : Int :=
  match s.data with
  | '-' :: rest => ((digitsToNat rest).map (fun n => -(n : Int))).getD 0
  | '+' :: rest => ((digitsToNat rest).map (fun n => (n : Int))).getD 0
  | cs => ((digitsToNat cs).map (fun n => (n : Int))).getD 0

/-- Is `a < b` in byte/code-point lexicographic order (the order
`sort.Sort(AWSStringSlice(out))` sorts by)? -/
def charsLt : List Char → List Char → Bool
  | [], [] => false
  | [], _ :: _ => true
  | _ :: _, [] => false
  | a :: as, b :: bs =>
    if a.val < b.val then true
    else if b.val < a.val then false
    else charsLt as bs

/-- `a ≤ b` in lexicographic order. -/
def strLe (a b : String) : Bool := !(charsLt b.data a.data)

/-- Insert into a sorted list. -/
def insertSorted (x : String) : List String → List String
  | [] => [x]
  | y :: ys => if strLe x y then x :: y :: ys else y :: insertSorted x ys

/-- `sort.Sort(AWSStringSlice(out))`: lexicographic string sort. -/
def sortStrings (l : List String) : List String := l.foldr insertSorted []

end GoStr

namespace SG

/-- `ec2.IpRange`; the reconciler reads only `CidrIp`. -/
structure IpRange where
  cidrIp : String
deriving DecidableEq, Repr

/-- `ec2.UserIdGroupPair`; the reconciler reads only `GroupId`, but the
value also carries `UserId` (relevant to the equality discussion). -/
structure UserIdGroupPair where
  userId : String
  groupId : String
deriving DecidableEq, Repr

/-- `ec2.IpPermission` restricted to the fields the reconciler reads. -/
structure IpPermission where
  ipProtocol : String
  fromPort : Int
  toPort : Int
  ipRanges : List IpRange
  userIdGroupPairs : List UserIdGroupPair
deriving DecidableEq, Repr

/-- `sg.SecurityGroup` (the desired specification). -/
structure SecurityGroup where
  groupID : Option String
  groupName : Option String
  inboundPermissions : List IpPermission
deriving DecidableEq, Repr

/-- `ec2.SecurityGroup` (the existing cloud instance), restricted to the
fields the reconciler reads. -/
structure SGInstance where
  groupId : String
  groupName : String
  ipPermissions : List IpPermission
deriving DecidableEq, Repr

/-- `ipRangeEquals`: two IPRanges are equal when their CidrIps agree. -/
def ipRangeEquals (source target : IpRange) : Bool :=
  source.cidrIp == target.cidrIp

/-- `diffIPRanges`: set difference `source - target`, keeping each source
range that matches no target range. -/
def diffIPRanges (source target : List IpRange) : List IpRange :=
  source.filter (fun sRange => !(target.any (fun tRange => ipRangeEquals sRange tRange)))

/-- `userIDGroupPairEquals`: per the source comment, only `GroupId` is
checked. -/
def userIDGroupPairEquals (source target : UserIdGroupPair) : Bool :=
  source.groupId == target.groupId

/-- `diffUserIDGroupPairs`: set difference `source - target` under
`userIDGroupPairEquals`. -/
def diffUserIDGroupPairs (source target : List UserIdGroupPair) : List UserIdGroupPair :=
  source.filter (fun sPair => !(target.any (fun tPair => userIDGroupPairEquals sPair tPair)))

/-- `ipPermissionEquals`: protocol, fromPort, toPort must agree, and the
IP-range and user-ID-group-pair lists must have empty differences in both
directions. -/
def ipPermissionEquals (source target : IpPermission) : Bool :=
  source.ipProtocol == target.ipProtocol &&
  source.fromPort == target.fromPort &&
  source.toPort == target.toPort &&
  (diffIPRanges source.ipRanges target.ipRanges).isEmpty &&
  (diffIPRanges target.ipRanges source.ipRanges).isEmpty &&
  (diffUserIDGroupPairs source.userIdGroupPairs target.userIdGroupPairs).isEmpty &&
  (diffUserIDGroupPairs target.userIdGroupPairs source.userIdGroupPairs).isEmpty

/-- `diffIPPermissions`: set difference `source - target` under
`ipPermissionEquals`. -/
def diffIPPermissions (source target : List IpPermission) : List IpPermission :=
  source.filter (fun sPermission => !(target.any (fun tPermission => ipPermissionEquals sPermission tPermission)))

/-- Modelled from the spec: the tag key/value pair `aws.ManagedByKey` /
`aws.ManagedByValue` (constants of the internal `aws` package, not among the
sources); the spec's tagging contract names the tag `managed-by=<controller-id>`. -/
def ManagedByKey : String := "managed-by"

/-- Modelled from the spec: see `ManagedByKey`. -/
def ManagedByValue : String := "controller-id"

/-- One cloud call issued by securityGroupController, with its arguments. -/
inductive SGCall where
  | createSG (groupName : String)
  | revoke (groupId : String) (permissions : List IpPermission)
  | authorize (groupId : String) (permissions : List IpPermission)
  | createTags (resources : List String) (tags : List (String × String))
deriving DecidableEq, Repr

/-- Environment injecting the outcome of each cloud call: lookup results for
`findExistingSGInstance` and failure injection (`some msg` = the call errors)
for the mutating calls. -/
structure CloudEnv where
  sgByID : String → Option SGInstance
  sgByIDErr : String → Option String
  sgByName : String → Option SGInstance
  sgByNameErr : String → Option String
  createdGroupId : String
  createSGErr : Option String
  authorizeErr : Option String
  revokeErr : Option String
  createTagsErr : Option String

/-- `findExistingSGInstance`: by GroupID (absent instance is an error), else
by GroupName (absent instance is not), else an error. -/
def findExistingSGInstance (env : CloudEnv) (group : SecurityGroup) :
    Except String (Option SGInstance) :=
  match group.groupID with
  | some gid =>
    match env.sgByIDErr gid with
    | some e => .error e
    | none =>
      match env.sgByID gid with
      | none => .error ("securityGroup " ++ gid ++ " does not exist")
      | some instance' => .ok (some instance')
  | none =>
    match group.groupName with
    | some gname =>
      match env.sgByNameErr gname with
      | some e => .error e
      | none => .ok (env.sgByName gname)
    | none => .error "Either GroupID or GroupName must be specified"

/-- `reconcileByNewSGInstance`: create the group, authorize the desired
inbound permissions, then tag it with `Name` and the managed-by tag.
Returns the calls issued and the error, if any. -/
def reconcileByNewSGInstance (env : CloudEnv) (group : SecurityGroup) :
    List SGCall × Option String :=
  let gname := group.groupName.getD ""
  match env.createSGErr with
  | some e => ([SGCall.createSG gname], some e)
  | none =>
    let gid := env.createdGroupId
    match env.authorizeErr with
    | some e => ([SGCall.createSG gname, SGCall.authorize gid group.inboundPermissions], some e)
    | none =>
      let tags := [("Name", gname), (ManagedByKey, ManagedByValue)]
      match env.createTagsErr with
      | some e =>
        ([SGCall.createSG gname, SGCall.authorize gid group.inboundPermissions,
          SGCall.createTags [gid] tags], some e)
      | none =>
        ([SGCall.createSG gname, SGCall.authorize gid group.inboundPermissions,
          SGCall.createTags [gid] tags], none)

/-- `reconcileByModifySGInstance`: revoke `current \ desired` when non-empty,
then authorize `desired \ current` when non-empty. -/
def reconcileByModifySGInstance (env : CloudEnv) (group : SecurityGroup)
    (instance' : SGInstance) : List SGCall × Option String :=
  let gid := group.groupID.getD instance'.groupId
  let permissionsToRevoke := diffIPPermissions instance'.ipPermissions group.inboundPermissions
  let (revokeCalls, revokeResult) :=
    if permissionsToRevoke.isEmpty then (([] : List SGCall), (none : Option String))
    else
      ([SGCall.revoke gid permissionsToRevoke],
        env.revokeErr.map (fun e => "failed to revoke inbound permissions due to " ++ e))
  match revokeResult with
  | some e => (revokeCalls, some e)
  | none =>
    let permissionsToGrant := diffIPPermissions group.inboundPermissions instance'.ipPermissions
    if permissionsToGrant.isEmpty then (revokeCalls, none)
    else
      (revokeCalls ++ [SGCall.authorize gid permissionsToGrant],
        env.authorizeErr.map (fun e => "failed to grant inbound permissions due to " ++ e))

/-- `securityGroupController.Reconcile`: find the existing instance; modify
it when found, create a new one otherwise. -/
def Reconcile (env : CloudEnv) (group : SecurityGroup) : List SGCall × Option String :=
  match findExistingSGInstance env group with
  | .error e => ([], some e)
  | .ok (some instance') => reconcileByModifySGInstance env group instance'
  | .ok none => reconcileByNewSGInstance env group

/-- Permission equality as the specification sentence words it: agreement on
`(protocol, fromPort, toPort)` with the IP-range list and the
user-ID-group-pair list each compared as sets (of whole elements). -/
def specPermissionEquals (source target : IpPermission) : Bool :=
  source.ipProtocol == target.ipProtocol &&
  source.fromPort == target.fromPort &&
  source.toPort == target.toPort &&
  (source.ipRanges.all (fun r => target.ipRanges.contains r) &&
   target.ipRanges.all (fun r => source.ipRanges.contains r)) &&
  (source.userIdGroupPairs.all (fun p => target.userIdGroupPairs.contains p) &&
   target.userIdGroupPairs.all (fun p => source.userIdGroupPairs.contains p))

/-- Set difference on permission lists under the specification's literal
equality, for comparison with `diffIPPermissions`. -/
def specDiffIPPermissions (source target : List IpPermission) : List IpPermission :=
  source.filter (fun sPermission => !(target.any (fun tPermission => specPermissionEquals sPermission tPermission)))

/-- Does any `createTags` call in the log carry a tag with the given key? -/
def callsHaveTagKey (calls : List SGCall) (k : String) : Bool :=
  calls.any (fun c =>
    match c with
    | SGCall.createTags _ tags => tags.any (fun t => t.1 == k)
    | _ => false)

/-- Permission equality as the amended claim words it: agreement on
`(protocol, fromPort, toPort)`, IP-range lists equal as sets, and
user-ID-group-pair lists equal as sets of group IDs (`UserId` ignored). -/
def amendedPermissionEquals (source target : IpPermission) : Bool :=
  source.ipProtocol == target.ipProtocol &&
  source.fromPort == target.fromPort &&
  source.toPort == target.toPort &&
  (source.ipRanges.all (fun r => target.ipRanges.contains r) &&
   target.ipRanges.all (fun r => source.ipRanges.contains r)) &&
  ((source.userIdGroupPairs.map (fun p => p.groupId)).all
      (fun g => (target.userIdGroupPairs.map (fun p => p.groupId)).contains g) &&
   (target.userIdGroupPairs.map (fun p => p.groupId)).all
      (fun g => (source.userIdGroupPairs.map (fun p => p.groupId)).contains g))

/-- Set difference on permission lists under the amended equality. -/
def amendedDiffIPPermissions (source target : List IpPermission) : List IpPermission :=
  source.filter (fun sPermission => !(target.any (fun tPermission => amendedPermissionEquals sPermission tPermission)))

/-- A permission whose only user-ID-group-pair names account `111` for
group `sg-1`. -/
def permUser1 : IpPermission :=
  ⟨"tcp", 80, 80, [⟨"0.0.0.0/0"⟩], [⟨"111", "sg-1"⟩]⟩

/-- Like `permUser1` but from account `222`. -/
def permUser2 : IpPermission :=
  ⟨"tcp", 80, 80, [⟨"0.0.0.0/0"⟩], [⟨"222", "sg-1"⟩]⟩

/-- A concrete existing instance holding `permUser1`. -/
def instSample : SGInstance := ⟨"sg-1", "gname", [permUser1]⟩

/-- A concrete cloud environment: `sg-1` exists as `instSample`, no other
lookups succeed, and no call fails. -/
def envSample : CloudEnv :=
  { sgByID := fun g => if g == "sg-1" then some instSample else none
    sgByIDErr := fun _ => none
    sgByName := fun _ => none
    sgByNameErr := fun _ => none
    createdGroupId := "sg-new"
    createSGErr := none
    authorizeErr := none
    revokeErr := none
    createTagsErr := none }

end SG

namespace TargetGroup

/-- The annotations `targetGroup.Parse` reads, each `none` when the
annotation is missing (i.e. when `parser.GetStringAnnotation` /
`GetInt64Annotation` errors and the default is taken). -/
structure TGAnnotations where
  targetType : Option String
  backendProtocol : Option String
  healthyThresholdCount : Option Int
  unhealthyThresholdCount : Option Int
  successCodesLegacy : Option String
  successCodes : Option String
  targetGroupAttributes : Option String
deriving DecidableEq, Repr

/-- `targetgroup.Config`. -/
structure Config where
  attributes : List (String × String)
  backendProtocol : String
  healthyThresholdCount : Int
  successCodes : String
  targetType : String
  unhealthyThresholdCount : Int
deriving DecidableEq, Repr

/-- Modelled from the spec: `util.NewAWSStringSlice` (the `pkg/util/types`
package is not among the sources); list-valued annotations are
comma-separated with whitespace trim and empty-token drop. -/
def NewAWSStringSlice (s : String) : List String :=
  (GoStr.split ',' s).filterMap (fun part =>
    let p := GoStr.trim part
    if p == "" then none else some p)

/-- Modelled from the spec: `albelbv2.TargetGroupAttributes.Set` (the
`internal/aws/albelbv2` package is not among the sources); attribute keys
are unique, so `Set` replaces the value at an existing key and appends
otherwise. -/
def attributesSet (attrs : List (String × String)) (k v : String) : List (String × String) :=
  if attrs.any (fun a => a.1 == k) then
    attrs.map (fun a => if a.1 == k then (k, v) else a)
  else attrs ++ [(k, v)]

/-- The error message `Parse` produces for malformed attribute tokens. -/
def mkBadAttrsMessage (badAttrs : List String) : String :=
  "Unable to parse `" ++ String.intercalate ", " badAttrs ++ "` into Key=Value pair(s)"

/-- One iteration of the attribute loop in `Parse`: empty tokens are
skipped, tokens not splitting into exactly two `=`-parts are collected as
bad, the rest are `Set` into the attributes. -/
def parseAttributesStep (acc : List (String × String) × List String) (rawAttr : String) :
    List (String × String) × List String :=
  if rawAttr == "" then acc
  else
    match GoStr.split '=' rawAttr with
    | [k, v] => (attributesSet acc.1 k v, acc.2)
    | _ => (acc.1, acc.2 ++ [rawAttr])

/-- The `target-group-attributes` portion of `Parse`: any bad token fails
the whole annotation with a message naming all bad tokens. -/
def parseTargetGroupAttributes (tgAttr : String) : Except String (List (String × String)) :=
  let folded := (NewAWSStringSlice tgAttr).foldl parseAttributesStep ([], [])
  if folded.2.isEmpty then .ok folded.1
  else .error (mkBadAttrsMessage folded.2)

/-- Does a token split into exactly one `key=value` pair? -/
def splitsIntoKV (t : String) : Bool :=
  match GoStr.split '=' t with
  | [_, _] => true
  | _ => false

/-- The non-empty tokens of the attribute annotation that fail to split
into exactly one `key=value` pair, in order. -/
def badTokensOf (s : String) : List String :=
  (NewAWSStringSlice s).filter (fun t => t != "" && !(splitsIntoKV t))

/-- `targetGroup.Parse`. Note the live target-type check accepts
`instance` and `pod` (the variant accepting `elbv2.TargetTypeEnumIp` is
commented out in the source). -/
def Parse (defaultTargetType : String) (ann : TGAnnotations) : Except String Config :=
  let targetType := ann.targetType.getD defaultTargetType
  if targetType != "instance" && targetType != "pod" then
    .error ("invalid annotation content of target-type: " ++ targetType)
  else
    let backendProtocol := ann.backendProtocol.getD "HTTP"
    let healthyThresholdCount := ann.healthyThresholdCount.getD 2
    let unhealthyThresholdCount := ann.unhealthyThresholdCount.getD 2
    let successCodesLegacy := ann.successCodesLegacy.getD "200"
    let successCodes := ann.successCodes.getD successCodesLegacy
    match ann.targetGroupAttributes with
    | none =>
      .ok { attributes := [], backendProtocol := backendProtocol,
            healthyThresholdCount := healthyThresholdCount,
            successCodes := successCodes, targetType := targetType,
            unhealthyThresholdCount := unhealthyThresholdCount }
    | some tgAttr =>
      match parseTargetGroupAttributes tgAttr with
      | .error e => .error e
      | .ok attributes =>
        .ok { attributes := attributes, backendProtocol := backendProtocol,
              healthyThresholdCount := healthyThresholdCount,
              successCodes := successCodes, targetType := targetType,
              unhealthyThresholdCount := unhealthyThresholdCount }

end TargetGroup

namespace Controller

/-- Annotation keys of the `controller` package. -/
def backendProtocolKey : String := "alb.ingress.kubernetes.io/backend-protocol"

def certificateArnKey : String := "alb.ingress.kubernetes.io/certificate-arn"

def healthcheckPathKey : String := "alb.ingress.kubernetes.io/healthcheck-path"

def portKey : String := "alb.ingress.kubernetes.io/port"

def schemeKey : String := "alb.ingress.kubernetes.io/scheme"

def securityGroupsKey : String := "alb.ingress.kubernetes.io/security-groups"

def subnetsKey : String := "alb.ingress.kubernetes.io/subnets"

def successCodesKey : String := "alb.ingress.kubernetes.io/successCodes"

def tagsKey : String := "alb.ingress.kubernetes.io/tags"

/-- `stringToAwsSlice`: comma-split, whitespace-trim, drop empty tokens. -/
def stringToAwsSlice (s : String) : List String :=
  (GoStr.split ',' s).filterMap (fun part =>
    let p := GoStr.trim part
    if p == "" then none else some p)

/-- `elbv2.Tag`. -/
structure ELBTag where
  key : String
  value : String
deriving DecidableEq, Repr

/-- `stringToTags`: tokens that do not split into at least two `=`-parts are
logged and skipped (`continue`), never reported as an error; a token with
several `=` contributes its first two parts. -/
def stringToTags (s : String) : List ELBTag :=
  (stringToAwsSlice s).filterMap (fun rawTag =>
    if rawTag == "" then none
    else
      match GoStr.split '=' rawTag with
      | k :: v :: _ => some ⟨k, v⟩
      | _ => none)

/-- `parseScheme`. -/
def parseScheme (s : String) : Except String String :=
  if s == "" then
    .error ("Necessary annotations missing. Must include " ++ schemeKey)
  else if s != "internal" && s != "internet-facing" then
    .error ("ALB scheme [" ++ s ++ "] must be either internal or internet-facing")
  else .ok s

/-- `parsePort`: defaults 80 (no certificate) / 443 (certificate);
otherwise a comma-split of the value with `ParseInt` errors ignored. -/
def parsePort (port certArn : String) : List Int :=
  if port == "" && certArn == "" then [80]
  else if port == "" && certArn != "" then [443]
  else (GoStr.split ',' port).map GoStr.parseIntOrZero

/-- `parseHealthcheckPath`: default `/`. -/
def parseHealthcheckPath (s : String) : String :=
  if s == "" then "/" else s

/-- A subnet as returned by `ec2.DescribeSubnets`, restricted to the fields
read (plus the availability zone, which the source never reads). -/
structure SubnetInfo where
  subnetId : String
  availabilityZone : String
  tags : List (String × String)
deriving DecidableEq, Repr

/-- A security group as returned by `ec2.DescribeSecurityGroups`,
restricted to the fields read. -/
structure SGInfo where
  groupId : String
  tags : List (String × String)
deriving DecidableEq, Repr

/-- The EC2 account contents visible to the resolvers. -/
structure EC2Env where
  subnets : List SubnetInfo
  securityGroups : List SGInfo
deriving Repr

/-- One EC2 call issued by the resolvers. -/
inductive EC2Call where
  | describeSubnetsByIds (subnetIds : List String)
  | describeSubnetsByNames (names : List String)
  | describeSecurityGroupsByNames (names : List String)
deriving DecidableEq, Repr

/-- `EC2Tags.Get`. -/
def tagsGet (tags : List (String × String)) (k : String) : Option String :=
  (tags.find? (fun t => t.1 == k)).map (fun t => t.2)

/-- The process-wide TTL cache, modelled as the entries currently live. -/
abbrev Cache : Type := List (String × String)

/-- `cache.Get`. -/
def cacheGet (cache : Cache) (k : String) : Option String :=
  ((cache : List (String × String)).find? (fun e => e.1 == k)).map (fun e => e.2)

/-- `cache.Set` (the 60-minute TTL is not represented; an entry is simply
live). -/
def cacheSet (cache : Cache) (k v : String) : Cache :=
  ((k, v) :: (cache : List (String × String)).filter (fun e => e.1 != k) : List (String × String))

/-- The token-classification loop of `parseSubnets`: `subnet-`-prefixed
tokens and cache hits go to the resolved list (first component), the rest
to the names needing lookup (second component), both in token order. -/
def classifySubnetTokens (cache : Cache) : List String → List String × List String
  | [] => ([], [])
  | t :: ts =>
    let rest := classifySubnetTokens cache ts
    if GoStr.hasPrefix t "subnet-" then (t :: rest.1, rest.2)
    else
      match cacheGet cache t with
      | some id => (id :: rest.1, rest.2)
      | none => (rest.1, t :: rest.2)

/-- `ec2.DescribeSubnets` with `SubnetIds`: the AWS API fails the whole
call when any requested ID does not exist. -/
def describeSubnetsByIds (env : EC2Env) (ids : List String) : Except String Unit :=
  if ids.all (fun id => env.subnets.any (fun sub => sub.subnetId == id)) then .ok ()
  else .error "InvalidSubnetID.NotFound"

/-- `ec2.DescribeSubnets` with a `tag:Name` filter. -/
def describeSubnetsByNames (env : EC2Env) (names : List String) : List SubnetInfo :=
  env.subnets.filter (fun sub =>
    match tagsGet sub.tags "Name" with
    | some v => names.contains v
    | none => false)

/-- Result of a resolver call: the EC2 calls issued, the cache afterwards,
and the resolved IDs or the error. -/
structure ResolveOut where
  calls : List EC2Call
  cache : Cache
  result : Except String (List String)

/-- The caching-and-collecting loop over the subnets a `tag:Name` describe
returned: each subnet carrying a `Name` tag is cached under that name and
its ID appended. -/
def collectNamedSubnets (acc : Cache × List String) (found : List SubnetInfo) :
    Cache × List String :=
  found.foldl (fun acc sub =>
    match tagsGet sub.tags "Name" with
    | some value => (cacheSet acc.1 value sub.subnetId, acc.2 ++ [sub.subnetId])
    | none => acc) acc

/-- `ALBController.parseSubnets`: classify the tokens; when any
pass-through/cached IDs were collected, verify they exist via one
`DescribeSubnets(SubnetIds=...)` call (its failure aborts); when any names
remain, resolve them via one `DescribeSubnets(tag:Name=...)` call, caching
and appending each returned mapping; sort; error when nothing resolved. -/
def parseSubnets (env : EC2Env) (cache : Cache) (s : String) : ResolveOut :=
  let cls := classifySubnetTokens cache (stringToAwsSlice s)
  let idsCheck : Except String Unit :=
    if cls.1.isEmpty then .ok () else describeSubnetsByIds env cls.1
  let calls1 : List EC2Call :=
    if cls.1.isEmpty then [] else [EC2Call.describeSubnetsByIds cls.1]
  match idsCheck with
  | .error e => ⟨calls1, cache, .error e⟩
  | .ok _ =>
    if cls.2.isEmpty then
      let out := GoStr.sortStrings cls.1
      if out.isEmpty then
        ⟨calls1, cache, .error ("unable to resolve any subnets from: " ++ s)⟩
      else
        ⟨calls1, cache, .ok out⟩
    else
      let collected := collectNamedSubnets (cache, cls.1) (describeSubnetsByNames env cls.2)
      let out := GoStr.sortStrings collected.2
      if out.isEmpty then
        ⟨calls1 ++ [EC2Call.describeSubnetsByNames cls.2], collected.1,
          .error ("unable to resolve any subnets from: " ++ s)⟩
      else
        ⟨calls1 ++ [EC2Call.describeSubnetsByNames cls.2], collected.1, .ok out⟩

/-- The token-classification loop of `parseSecurityGroups` (prefix `sg-`). -/
def classifySGTokens (cache : Cache) : List String → List String × List String
  | [] => ([], [])
  | t :: ts =>
    let rest := classifySGTokens cache ts
    if GoStr.hasPrefix t "sg-" then (t :: rest.1, rest.2)
    else
      match cacheGet cache t with
      | some id => (id :: rest.1, rest.2)
      | none => (rest.1, t :: rest.2)

/-- `ec2.DescribeSecurityGroups` with a `tag:Name` filter. -/
def describeSecurityGroupsByNames (env : EC2Env) (names : List String) : List SGInfo :=
  env.securityGroups.filter (fun sg =>
    match tagsGet sg.tags "Name" with
    | some v => names.contains v
    | none => false)

/-- The caching-and-collecting loop of `parseSecurityGroups`. -/
def collectNamedSGs (acc : Cache × List String) (found : List SGInfo) :
    Cache × List String :=
  found.foldl (fun acc sg =>
    match tagsGet sg.tags "Name" with
    | some value => (cacheSet acc.1 value sg.groupId, acc.2 ++ [sg.groupId])
    | none => acc) acc

/-- `parseSecurityGroups`: like `parseSubnets` but with no existence check
on the pass-through IDs. -/
def parseSecurityGroups (env : EC2Env) (cache : Cache) (s : String) : ResolveOut :=
  let cls := classifySGTokens cache (stringToAwsSlice s)
  if cls.2.isEmpty then
    let out := GoStr.sortStrings cls.1
    if out.isEmpty then
      ⟨[], cache, .error ("unable to resolve any security groups from: " ++ s)⟩
    else
      ⟨[], cache, .ok out⟩
  else
    let collected := collectNamedSGs (cache, cls.1) (describeSecurityGroupsByNames env cls.2)
    let out := GoStr.sortStrings collected.2
    if out.isEmpty then
      ⟨[EC2Call.describeSecurityGroupsByNames cls.2], collected.1,
        .error ("unable to resolve any security groups from: " ++ s)⟩
    else
      ⟨[EC2Call.describeSecurityGroupsByNames cls.2], collected.1, .ok out⟩

/-- `annotationsT`. -/
structure AnnotationsT where
  backendProtocol : String
  certificateArn : Option String
  healthcheckPath : String
  port : List Int
  scheme : String
  securityGroups : List String
  subnets : List String
  successCodes : String
  tags : List ELBTag
deriving DecidableEq, Repr

/-- Go map read `annotations[k]`: the empty string when absent. -/
def annGet (annotations : List (String × String)) (k : String) : String :=
  ((annotations.find? (fun kv => kv.1 == k)).map (fun kv => kv.2)).getD ""

/-- Go two-valued map read `_, ok := annotations[k]`. -/
def annHas (annotations : List (String × String)) (k : String) : Bool :=
  annotations.any (fun kv => kv.1 == k)

/-- Insert an annotation entry into a key-sorted list. -/
def insertAnnotationSorted (kv : String × String) :
    List (String × String) → List (String × String)
  | [] => [kv]
  | e :: es => if GoStr.strLe kv.1 e.1 then kv :: e :: es else e :: insertAnnotationSorted kv es

/-- Sort an annotation map by key (`SortedMap`). -/
def sortAnnotations (annotations : List (String × String)) : List (String × String) :=
  annotations.foldr insertAnnotationSorted []

/-- The negative-cache key `"annotations " + awsutil.Prettify(SortedMap(annotations))`,
with a deterministic rendering standing in for `Prettify`. -/
def cacheKeyOf (annotations : List (String × String)) : String :=
  "annotations " ++
    String.intercalate "," ((sortAnnotations annotations).map (fun kv => kv.1 ++ "=" ++ kv.2))

/-- Result of `parseAnnotations`: the EC2 calls issued, the cache
afterwards, and the Go pair `(*annotationsT, error)`. -/
structure ParseAnnotationsOut where
  calls : List EC2Call
  cache : Cache
  config : Option AnnotationsT
  err : Option String

/-- `ALBController.parseAnnotations`. A live negative-cache entry returns
`(nil, nil)` at once; the subnet annotation is required; subnet,
security-group and scheme failures negative-cache the key for an hour and
return the error. -/
def parseAnnotations (env : EC2Env) (cache : Cache) (annotations : List (String × String)) :
    ParseAnnotationsOut :=
  let cacheKey := cacheKeyOf annotations
  if (cacheGet cache cacheKey).isSome then ⟨[], cache, none, none⟩
  else
    let successCodesV := let v := annGet annotations successCodesKey
                         if v == "" then "200" else v
    let backendProtocolV := let v := annGet annotations backendProtocolKey
                            if v == "" then "HTTP" else v
    let subnetsV := annGet annotations subnetsKey
    if subnetsV == "" then
      ⟨[], cacheSet cache cacheKey "error", none,
        some ("Necessary annotations missing. Must include " ++ subnetsKey)⟩
    else
      let sub := parseSubnets env cache subnetsV
      match sub.result with
      | .error e => ⟨sub.calls, cacheSet sub.cache cacheKey "error", none, some e⟩
      | .ok subnetList =>
        let sgs := parseSecurityGroups env sub.cache (annGet annotations securityGroupsKey)
        match sgs.result with
        | .error e =>
          ⟨sub.calls ++ sgs.calls, cacheSet sgs.cache cacheKey "error", none, some e⟩
        | .ok sgList =>
          match parseScheme (annGet annotations schemeKey) with
          | .error e =>
            ⟨sub.calls ++ sgs.calls, cacheSet sgs.cache cacheKey "error", none, some e⟩
          | .ok scheme =>
            ⟨sub.calls ++ sgs.calls, sgs.cache,
              some
                { backendProtocol := backendProtocolV
                  certificateArn :=
                    if annHas annotations certificateArnKey then
                      some (annGet annotations certificateArnKey)
                    else none
                  healthcheckPath := parseHealthcheckPath (annGet annotations healthcheckPathKey)
                  port := parsePort (annGet annotations portKey) (annGet annotations certificateArnKey)
                  scheme := scheme
                  securityGroups := sgList
                  subnets := subnetList
                  successCodes := successCodesV
                  tags := stringToTags (annGet annotations tagsKey) },
              none⟩

/-- Is a call a `tag:Name`-filtered subnet list call? -/
def isSubnetNameLookup (c : EC2Call) : Bool :=
  match c with
  | EC2Call.describeSubnetsByNames _ => true
  | _ => false

/-- The availability zone of a subnet ID in the environment. -/
def azOf (env : EC2Env) (id : String) : Option String :=
  (env.subnets.find? (fun sub => sub.subnetId == id)).map (fun sub => sub.availabilityZone)

/-- An environment whose two subnets `subnet-a`, `subnet-b` sit in the same
availability zone. -/
def envSameAZ : EC2Env :=
  { subnets := [⟨"subnet-a", "zone-1", []⟩, ⟨"subnet-b", "zone-1", []⟩]
    securityGroups := [] }

/-- An environment with one subnet and one security group, both carrying a
`Name` tag. -/
def envNamed : EC2Env :=
  { subnets := [⟨"subnet-x", "zone-1", [("Name", "mysub")]⟩]
    securityGroups := [⟨"sg-x", [("Name", "mysg")]⟩] }

/-- A concrete annotation map. -/
def annSample : List (String × String) :=
  [(subnetsKey, "subnet-a"), (schemeKey, "internal")]

/-- A cache holding a live negative entry for `annSample`. -/
def cacheNegSample : Cache :=
  ([(cacheKeyOf annSample, "error")] : List (String × String))

end Controller

namespace GroupRec

/-- One step of `GroupReconciler.Reconcile`, recorded in order of
execution. Members are identified by name. -/
inductive RecEvent where
  | load
  | addFinalizer (members : List String)
  | buildModel
  | marshal
  | deploy
  | resolveARN
  | removeFinalizer (members : List String)
deriving DecidableEq, Repr

/-- Outcomes of the collaborators `GroupReconciler.Reconcile` calls: the
group loader's result (active members, inactive members) and success/
failure of each later step. -/
structure RecEnv where
  loadResult : Except String (List String × List String)
  addFinalizerOk : Bool
  buildOk : Bool
  marshalOk : Bool
  deployOk : Bool
  resolveOk : Bool
  removeFinalizerOk : Bool
deriving Repr

/-- `GroupReconciler.Reconcile`: load the group, add the group finalizer to
the members, build and marshal the model, deploy, resolve the LB ARN, then
remove the finalizer from the inactive members; any failure aborts with an
error. Returns the executed steps in order together with the error, if
any. -/
def Reconcile (env : RecEnv) : List RecEvent × Option String :=
  match env.loadResult with
  | .error e => ([RecEvent.load], some e)
  | .ok (members, inactiveMembers) =>
    let evs := [RecEvent.load, RecEvent.addFinalizer members]
    if !env.addFinalizerOk then (evs, some "failed to add group finalizer") else
    let evs := evs ++ [RecEvent.buildModel]
    if !env.buildOk then (evs, some "failed to build model") else
    let evs := evs ++ [RecEvent.marshal]
    if !env.marshalOk then (evs, some "failed to marshal model") else
    let evs := evs ++ [RecEvent.deploy]
    if !env.deployOk then (evs, some "failed to deploy stack") else
    let evs := evs ++ [RecEvent.resolveARN]
    if !env.resolveOk then (evs, some "failed to resolve LoadBalancerARN") else
    let evs := evs ++ [RecEvent.removeFinalizer inactiveMembers]
    if !env.removeFinalizerOk then (evs, some "failed to remove group finalizer")
    else (evs, none)

/-- The full successful step sequence for a load result. -/
def fullSequence (env : RecEnv) : List RecEvent :=
  match env.loadResult with
  | .error _ => [RecEvent.load]
  | .ok (members, inactiveMembers) =>
    [RecEvent.load, RecEvent.addFinalizer members, RecEvent.buildModel, RecEvent.marshal,
      RecEvent.deploy, RecEvent.resolveARN, RecEvent.removeFinalizer inactiveMembers]

end GroupRec

namespace Rules

/-- `elbv2.RuleCondition`, restricted to `Field` and `Values`. -/
structure RuleCondition where
  field : String
  values : List String
deriving DecidableEq, Repr

/-- The domain of the string-valued `Priority` field of an `elbv2.Rule`:
the word "default" or a decimal number. -/
inductive RulePriority where
  | dflt
  | num (n : Nat)
deriving DecidableEq, Repr

/-- A desired listener rule (`elbv2.Rule` as built by `NewDesiredRules`):
`IsDefault`, the `Priority` and the conditions. -/
structure DesiredRule where
  isDefault : Bool
  priority : RulePriority
  conditions : List RuleCondition
deriving DecidableEq, Repr

/-- The conditions of a non-default rule for `(host, path)`: a
`host-header` condition when the host is non-empty, then a `path-pattern`
condition. -/
def ruleConditions (host path : String) : List RuleCondition :=
  (if host == "" then [] else [⟨"host-header", [host]⟩]) ++
    [⟨"path-pattern", [path]⟩]

/-- The non-default rules for the paths, with priorities counted up from
`i`. -/
def buildRules (host : String) : Nat → List String → List DesiredRule
  | _, [] => []
  | i, p :: ps => ⟨false, .num i, ruleConditions host p⟩ :: buildRules host (i + 1) ps

/-- Modelled from the spec: `rs.NewDesiredRules` (only its test is among
the sources). For one ingress rule with host `host` and paths `paths`:
an ingress with no paths is an error; otherwise the first emitted rule is
the default rule (priority "default", no conditions) and each path yields
one non-default rule with dense priorities starting at 1, a `host-header`
condition when the host is non-empty and a `path-pattern` condition for
the path. -/
def NewDesiredRules (host : String) (paths : List String) :
    Except String (List DesiredRule) :=
  if paths.isEmpty then .error "ingress doesn't have any paths defined"
  else .ok (⟨true, .dflt, []⟩ :: buildRules host 1 paths)

end Rules

/-! ## Theorems -/

namespace SG

theorem ipRangeEquals_iff (r r' : IpRange) : ipRangeEquals r r' = true ↔ r = r' := by
  cases r; cases r'; simp [ipRangeEquals]

theorem diffIPRanges_eq_nil_iff (a b : List IpRange) :
    diffIPRanges a b = [] ↔ ∀ r ∈ a, r ∈ b := by
  simp [diffIPRanges, List.filter_eq_nil_iff, List.any_eq_true, ipRangeEquals_iff]

theorem diffUserIDGroupPairs_eq_nil_iff (a b : List UserIdGroupPair) :
    diffUserIDGroupPairs a b = [] ↔ ∀ p ∈ a, ∃ q ∈ b, p.groupId = q.groupId := by
  simp [diffUserIDGroupPairs, List.filter_eq_nil_iff, List.any_eq_true, userIDGroupPairEquals]

theorem ipPermissionEquals_eq_amended (s t : IpPermission) :
    ipPermissionEquals s t = amendedPermissionEquals s t := by
  rw [Bool.eq_iff_iff]
  simp only [ipPermissionEquals, amendedPermissionEquals, Bool.and_eq_true, beq_iff_eq,
    List.isEmpty_iff, diffIPRanges_eq_nil_iff, diffUserIDGroupPairs_eq_nil_iff,
    List.all_eq_true, List.contains, List.elem_eq_mem, decide_eq_true_eq, List.mem_map]
  constructor
  · rintro ⟨⟨⟨⟨hppt, hr1⟩, hr2⟩, hp1⟩, hp2⟩
    refine ⟨⟨hppt, hr1, hr2⟩, ?_, ?_⟩
    · rintro x ⟨a, ha, rfl⟩
      obtain ⟨q, hq, h⟩ := hp1 a ha
      exact ⟨q, hq, h.symm⟩
    · rintro x ⟨a, ha, rfl⟩
      obtain ⟨q, hq, h⟩ := hp2 a ha
      exact ⟨q, hq, h.symm⟩
  · rintro ⟨⟨hppt, hr1, hr2⟩, hq1, hq2⟩
    refine ⟨⟨⟨⟨hppt, hr1⟩, hr2⟩, ?_⟩, ?_⟩
    · intro p hp
      obtain ⟨q, hq, h⟩ := hq1 p.groupId ⟨p, hp, rfl⟩
      exact ⟨q, hq, h.symm⟩
    · intro p hp
      obtain ⟨q, hq, h⟩ := hq2 p.groupId ⟨p, hp, rfl⟩
      exact ⟨q, hq, h.symm⟩

theorem diffIPPermissions_eq_amended (a b : List IpPermission) :
    diffIPPermissions a b = amendedDiffIPPermissions a b := by
  simp only [diffIPPermissions, amendedDiffIPPermissions, ipPermissionEquals_eq_amended]

theorem ipPermissionEquals_refl (p : IpPermission) : ipPermissionEquals p p = true := by
  simp [ipPermissionEquals, List.isEmpty_iff, diffIPRanges_eq_nil_iff,
    diffUserIDGroupPairs_eq_nil_iff]
  intro q hq
  exact ⟨q, hq, rfl⟩

theorem diffIPPermissions_eq_nil_of_subset {a b : List IpPermission}
    (h : ∀ p ∈ a, p ∈ b) : diffIPPermissions a b = [] := by
  simp only [diffIPPermissions, List.filter_eq_nil_iff]
  intro p hp
  simp only [Bool.not_eq_true', Bool.not_eq_false, List.any_eq_true]
  exact ⟨p, h p hp, ipPermissionEquals_refl p⟩

/-- **C1** (corrected; counterexample). Two permissions agreeing on
`(protocol, fromPort, toPort)` and on IP ranges whose user-ID-group-pair
lists differ only in `UserId` — hence are *not* equal as sets of pairs —
are treated as equal by the reconciler: both computed sets are empty and no
revoke or authorize call is made, while the claim's literal equality makes
both sets non-empty and would trigger both calls. -/
theorem claim1_counterexample :
    diffIPPermissions [permUser1] [permUser2] = [] ∧
    diffIPPermissions [permUser2] [permUser1] = [] ∧
    specDiffIPPermissions [permUser1] [permUser2] = [permUser1] ∧
    specDiffIPPermissions [permUser2] [permUser1] = [permUser2] ∧
    reconcileByModifySGInstance envSample ⟨some "sg-1", none, [permUser2]⟩ instSample
      = ([], none) :=
  ⟨rfl, rfl, rfl, rfl, rfl⟩

/-- **C1** (amended). The reconciler computes the revoke set as
`current \ desired` and the grant set as `desired \ current`, where two
permissions are equal iff they agree on `(protocol, fromPort, toPort)`,
their IP-range lists are equal as sets, and their user-ID-group-pair lists
are equal as sets of group IDs (`UserId` ignored); only non-empty sets
trigger a revoke or authorize call. -/
theorem claim1_revoke_grant_sets (env : CloudEnv) (group : SecurityGroup)
    (inst : SGInstance) (hrev : env.revokeErr = none) (hauth : env.authorizeErr = none) :
    reconcileByModifySGInstance env group inst =
      (let gid := group.groupID.getD inst.groupId
       let toRevoke := amendedDiffIPPermissions inst.ipPermissions group.inboundPermissions
       let toGrant := amendedDiffIPPermissions group.inboundPermissions inst.ipPermissions
       ((if toRevoke.isEmpty then [] else [SGCall.revoke gid toRevoke]) ++
        (if toGrant.isEmpty then [] else [SGCall.authorize gid toGrant]), none)) := by
  simp only [reconcileByModifySGInstance, hrev, hauth, Option.map_none',
    ← diffIPPermissions_eq_amended]
  cases h1 : (diffIPPermissions inst.ipPermissions group.inboundPermissions).isEmpty <;>
    cases h2 : (diffIPPermissions group.inboundPermissions inst.ipPermissions).isEmpty <;>
      simp [h1, h2]

/-- Witness for C1's amended theorem at a concrete input. -/
theorem claim1_witness :
    reconcileByModifySGInstance envSample ⟨some "sg-1", none, []⟩ instSample =
      ([SGCall.revoke "sg-1" [permUser1]], none) := by
  rw [claim1_revoke_grant_sets envSample ⟨some "sg-1", none, []⟩ instSample rfl rfl]
  rfl

/-- **C3** (confirmed). When the existing instance's inbound permissions
equal the desired inbound permissions as sets, `Reconcile` issues no revoke
and no authorize call and returns success. -/
theorem claim3_idempotent (env : CloudEnv) (group : SecurityGroup) (inst : SGInstance)
    (hfind : findExistingSGInstance env group = .ok (some inst))
    (hperm : ∀ p : IpPermission, p ∈ inst.ipPermissions ↔ p ∈ group.inboundPermissions) :
    Reconcile env group = ([], none) := by
  have h1 : diffIPPermissions inst.ipPermissions group.inboundPermissions = [] :=
    diffIPPermissions_eq_nil_of_subset (fun p hp => (hperm p).mp hp)
  have h2 : diffIPPermissions group.inboundPermissions inst.ipPermissions = [] :=
    diffIPPermissions_eq_nil_of_subset (fun p hp => (hperm p).mpr hp)
  simp [Reconcile, hfind, reconcileByModifySGInstance, h1, h2]

/-- Witness for C3 at a concrete input. -/
theorem claim3_witness :
    Reconcile envSample ⟨some "sg-1", none, [permUser1]⟩ = ([], none) :=
  claim3_idempotent envSample ⟨some "sg-1", none, [permUser1]⟩ instSample rfl
    (fun _ => Iff.rfl)

/-- **C4** (corrected; counterexample). A successfully created security
group is tagged with `Name` and the managed-by tag only: the call log of
`reconcileByNewSGInstance` contains a `createTags` call with the managed-by
key but none with a `group` key. -/
theorem claim4_counterexample :
    (reconcileByNewSGInstance envSample ⟨none, some "gname", []⟩).2 = none ∧
    callsHaveTagKey (reconcileByNewSGInstance envSample ⟨none, some "gname", []⟩).1
      ManagedByKey = true ∧
    callsHaveTagKey (reconcileByNewSGInstance envSample ⟨none, some "gname", []⟩).1
      "group" = false :=
  ⟨rfl, rfl, rfl⟩

/-- **C4** (amended). A newly created managed security group is tagged,
immediately upon creation, with exactly `Name=<group-name>` and the
managed-by tag; no `group=<group-id>` tag is attached by this code path. -/
theorem claim4_creation_tags (env : CloudEnv) (group : SecurityGroup)
    (h1 : env.createSGErr = none) (h2 : env.authorizeErr = none)
    (h3 : env.createTagsErr = none) :
    reconcileByNewSGInstance env group =
      ([SGCall.createSG (group.groupName.getD ""),
        SGCall.authorize env.createdGroupId group.inboundPermissions,
        SGCall.createTags [env.createdGroupId]
          [("Name", group.groupName.getD ""), (ManagedByKey, ManagedByValue)]], none) := by
  simp [reconcileByNewSGInstance, h1, h2, h3]

/-- Witness for C4's amended theorem at a concrete input. -/
theorem claim4_witness :
    reconcileByNewSGInstance envSample ⟨none, some "gname", []⟩ =
      ([SGCall.createSG "gname", SGCall.authorize "sg-new" [],
        SGCall.createTags ["sg-new"]
          [("Name", "gname"), (ManagedByKey, ManagedByValue)]], none) :=
  claim4_creation_tags envSample ⟨none, some "gname", []⟩ rfl rfl rfl

/-- **C9** (confirmed). In the permission diff, equality of
user-ID-group-pairs is decided by group ID alone: two pairs are equal iff
their `GroupId`s agree, whatever their `UserId`s, and the pair diff then
treats them as equal. -/
theorem claim9_groupId_only (s t : UserIdGroupPair) :
    (userIDGroupPairEquals s t = true ↔ s.groupId = t.groupId) ∧
    (s.groupId = t.groupId →
      diffUserIDGroupPairs [s] [t] = [] ∧ diffUserIDGroupPairs [t] [s] = []) := by
  refine ⟨by simp [userIDGroupPairEquals], fun h => ?_⟩
  constructor <;> simp [diffUserIDGroupPairs, userIDGroupPairEquals, h]

/-- Witness for C9 at a concrete input. -/
theorem claim9_witness :
    userIDGroupPairEquals ⟨"111", "sg-1"⟩ ⟨"222", "sg-1"⟩ = true :=
  (claim9_groupId_only ⟨"111", "sg-1"⟩ ⟨"222", "sg-1"⟩).1.mpr rfl

end SG

namespace TargetGroup

theorem parseAttributesStep_snd (acc : List (String × String) × List String) (t : String) :
    (parseAttributesStep acc t).2 =
      acc.2 ++ (if t != "" && !(splitsIntoKV t) then [t] else []) := by
  by_cases ht : t = ""
  · subst ht
    simp [parseAttributesStep]
  · unfold parseAttributesStep splitsIntoKV
    cases hs : GoStr.split '=' t with
    | nil => simp [hs, ht]
    | cons k rest =>
      cases rest with
      | nil => simp [hs, ht]
      | cons v rest2 =>
        cases rest2 with
        | nil => simp [hs, ht]
        | cons w rest3 => simp [hs, ht]

theorem badAttrs_foldl (l : List String) (acc : List (String × String) × List String) :
    (l.foldl parseAttributesStep acc).2 =
      acc.2 ++ l.filter (fun t => t != "" && !(splitsIntoKV t)) := by
  induction l generalizing acc with
  | nil => simp
  | cons t ts ih =>
    rw [List.foldl_cons, ih, parseAttributesStep_snd, List.filter_cons]
    by_cases hb : (t != "" && !(splitsIntoKV t)) = true
    · simp [hb]
    · simp [hb]

theorem badAttrs_eq_badTokensOf (s : String) :
    ((NewAWSStringSlice s).foldl parseAttributesStep ([], [])).2 = badTokensOf s := by
  rw [badAttrs_foldl]
  rfl

/-- **C5** (corrected; counterexample). The malformed token `not-a-kv` in
the tags annotation is silently dropped: `stringToTags` returns the
partial result without any error, while the target-group-attributes
annotation does fail wholly with an error naming the token. -/
theorem claim5_counterexample :
    Controller.stringToTags "a=b, not-a-kv" = [⟨"a", "b"⟩] ∧
    Controller.stringToTags "not-a-kv" = [] ∧
    parseTargetGroupAttributes "a=b, not-a-kv" =
      .error "Unable to parse `not-a-kv` into Key=Value pair(s)" :=
  ⟨rfl, rfl, rfl⟩

/-- **C5** (amended). For the target-group-attributes annotation, any
non-empty token that does not split into exactly one `key=value` pair
fails the whole annotation with an error naming the malformed tokens, and
no partial result is returned; the tags annotation instead drops each
token that does not split into at least two `=`-parts (logging it) and
returns the remaining pairs without error. -/
theorem claim5_kv_annotations (s : String) :
    (badTokensOf s = [] → ∃ attrs, parseTargetGroupAttributes s = .ok attrs) ∧
    (badTokensOf s ≠ [] →
      parseTargetGroupAttributes s = .error (mkBadAttrsMessage (badTokensOf s))) ∧
    Controller.stringToTags s =
      (Controller.stringToAwsSlice s).filterMap (fun t =>
        match GoStr.split '=' t with
        | k :: v :: _ => some (⟨k, v⟩ : Controller.ELBTag)
        | _ => none) := by
  refine ⟨?_, ?_, ?_⟩
  · intro h
    refine ⟨((NewAWSStringSlice s).foldl parseAttributesStep ([], [])).1, ?_⟩
    simp only [parseTargetGroupAttributes]
    rw [badAttrs_eq_badTokensOf, h]
    rfl
  · intro h
    simp only [parseTargetGroupAttributes]
    rw [badAttrs_eq_badTokensOf, if_neg]
    simpa [List.isEmpty_iff] using h
  · unfold Controller.stringToTags
    apply congrArg (fun f => List.filterMap f (Controller.stringToAwsSlice s))
    funext t
    by_cases h : t = ""
    · subst h; rfl
    · simp [h]

/-- Witness for C5's amended theorem at a concrete input. -/
theorem claim5_witness :
    parseTargetGroupAttributes "bad, also-bad" =
      .error (mkBadAttrsMessage (badTokensOf "bad, also-bad")) :=
  (claim5_kv_annotations "bad, also-bad").2.1 (by decide)

/-- **C6** (corrected; counterexample). The target-type value `ip` is
rejected with an invalid-annotation-content error, while `pod` is
accepted: the live check in `Parse` reads `instance`/`pod`, the
`instance`/`ip` variant being commented out. -/
theorem claim6_counterexample :
    Parse "instance" ⟨some "ip", none, none, none, none, none, none⟩ =
      .error "invalid annotation content of target-type: ip" ∧
    Parse "instance" ⟨some "pod", none, none, none, none, none, none⟩ =
      .ok { attributes := [], backendProtocol := "HTTP", healthyThresholdCount := 2,
            successCodes := "200", targetType := "pod", unhealthyThresholdCount := 2 } :=
  ⟨rfl, rfl⟩

/-- **C6** (amended). The target-type annotation accepts exactly the
values `instance` and `pod`: parsing succeeds (other fields being valid)
iff the effective target type is one of them, and fails with an
invalid-annotation-content error otherwise. -/
theorem claim6_target_type (d : String) (ann : TGAnnotations)
    (hattr : ann.targetGroupAttributes = none) :
    ((∃ cfg, Parse d ann = .ok cfg) ↔
      (ann.targetType.getD d = "instance" ∨ ann.targetType.getD d = "pod")) ∧
    (ann.targetType.getD d ≠ "instance" → ann.targetType.getD d ≠ "pod" →
      Parse d ann =
        .error ("invalid annotation content of target-type: " ++ ann.targetType.getD d)) := by
  by_cases h1 : ann.targetType.getD d = "instance"
  · have hok : Parse d ann =
        .ok { attributes := [], backendProtocol := ann.backendProtocol.getD "HTTP",
              healthyThresholdCount := ann.healthyThresholdCount.getD 2,
              successCodes := ann.successCodes.getD (ann.successCodesLegacy.getD "200"),
              targetType := ann.targetType.getD d,
              unhealthyThresholdCount := ann.unhealthyThresholdCount.getD 2 } := by
      simp only [Parse, hattr]
      rw [if_neg (by simp [h1])]
    exact ⟨iff_of_true ⟨_, hok⟩ (Or.inl h1), fun hc => absurd h1 hc⟩
  · by_cases h2 : ann.targetType.getD d = "pod"
    · have hok : Parse d ann =
          .ok { attributes := [], backendProtocol := ann.backendProtocol.getD "HTTP",
                healthyThresholdCount := ann.healthyThresholdCount.getD 2,
                successCodes := ann.successCodes.getD (ann.successCodesLegacy.getD "200"),
                targetType := ann.targetType.getD d,
                unhealthyThresholdCount := ann.unhealthyThresholdCount.getD 2 } := by
        simp only [Parse, hattr]
        rw [if_neg (by simp [h2])]
      exact ⟨iff_of_true ⟨_, hok⟩ (Or.inr h2), fun _ hc => absurd h2 hc⟩
    · have herr : Parse d ann =
          .error ("invalid annotation content of target-type: " ++ ann.targetType.getD d) := by
        simp only [Parse, hattr]
        rw [if_pos (by simp [h1, h2])]
      refine ⟨⟨?_, ?_⟩, fun _ _ => herr⟩
      · rintro ⟨cfg, hcfg⟩
        rw [herr] at hcfg
        exact absurd hcfg (by simp)
      · rintro (hc | hc)
        · exact absurd hc h1
        · exact absurd hc h2

/-- Witness for C6's amended theorem at a concrete input. -/
theorem claim6_witness :
    Parse "instance" ⟨some "ipv6", none, none, none, none, none, none⟩ =
      .error "invalid annotation content of target-type: ipv6" :=
  (claim6_target_type "instance" ⟨some "ipv6", none, none, none, none, none, none⟩
    rfl).2 (by decide) (by decide)

end TargetGroup

namespace GroupRec

/-- **C2** (confirmed). In every reconcile: the executed steps form an
initial segment of `load, addFinalizer(members), build, marshal, deploy,
resolveARN, removeFinalizer(inactive)` — so the finalizer is added to the
active members before the model is built, and removed from the inactive
members only after the deploy (and ARN resolution) succeeded; a load
failure aborts at once; the removal step is reached iff every step through
ARN resolution succeeded; and a failure of finalizer addition, model
building or deployment aborts the reconcile with an error and without any
finalizer removal. -/
theorem claim2_finalizer_ordering (env : RecEnv) :
    (∃ rest, fullSequence env = (Reconcile env).1 ++ rest) ∧
    (∀ e, env.loadResult = .error e → Reconcile env = ([RecEvent.load], some e)) ∧
    (∀ ams ims, env.loadResult = .ok (ams, ims) →
      ((RecEvent.removeFinalizer ims ∈ (Reconcile env).1) ↔
        env.addFinalizerOk = true ∧ env.buildOk = true ∧ env.marshalOk = true ∧
          env.deployOk = true ∧ env.resolveOk = true) ∧
      (RecEvent.buildModel ∈ (Reconcile env).1 → env.addFinalizerOk = true) ∧
      ((env.addFinalizerOk = false ∨ env.buildOk = false ∨ env.deployOk = false) →
        (Reconcile env).2.isSome = true ∧
          RecEvent.removeFinalizer ims ∉ (Reconcile env).1)) := by
  refine ⟨⟨(fullSequence env).drop ((Reconcile env).1.length), ?_⟩, ?_, ?_⟩
  · rcases hL : env.loadResult with e | ⟨ams0, ims0⟩
    · simp [fullSequence, Reconcile, hL]
    · cases hA : env.addFinalizerOk <;> cases hB : env.buildOk <;>
        cases hM : env.marshalOk <;> cases hD : env.deployOk <;>
          cases hR : env.resolveOk <;> cases hRem : env.removeFinalizerOk <;>
            simp [fullSequence, Reconcile, hL, hA, hB, hM, hD, hR, hRem]
  · intro e he
    simp [Reconcile, he]
  · intro ams ims h'
    cases hA : env.addFinalizerOk <;> cases hB : env.buildOk <;>
      cases hM : env.marshalOk <;> cases hD : env.deployOk <;>
        cases hR : env.resolveOk <;> cases hRem : env.removeFinalizerOk <;>
          simp [Reconcile, h', hA, hB, hM, hD, hR, hRem]

/-- Witness for C2 at a concrete environment. -/
theorem claim2_witness :
    Reconcile { loadResult := .ok (["member-a"], ["member-b"]), addFinalizerOk := true,
                buildOk := true, marshalOk := true, deployOk := false, resolveOk := true,
                removeFinalizerOk := true } =
      ([RecEvent.load, RecEvent.addFinalizer ["member-a"], RecEvent.buildModel,
        RecEvent.marshal, RecEvent.deploy], some "failed to deploy stack") ∧
    RecEvent.removeFinalizer ["member-b"] ∉
      (Reconcile { loadResult := .ok (["member-a"], ["member-b"]), addFinalizerOk := true,
                   buildOk := true, marshalOk := true, deployOk := false, resolveOk := true,
                   removeFinalizerOk := true }).1 :=
  ⟨rfl,
    ((claim2_finalizer_ordering
      { loadResult := .ok (["member-a"], ["member-b"]), addFinalizerOk := true,
        buildOk := true, marshalOk := true, deployOk := false, resolveOk := true,
        removeFinalizerOk := true }).2.2 ["member-a"] ["member-b"] rfl).2.2
      (Or.inr (Or.inr rfl)) |>.2⟩

end GroupRec

namespace GoStr

theorem mem_insertSorted (x : String) (l : List String) (a : String) :
    a ∈ insertSorted x l ↔ a = x ∨ a ∈ l := by
  induction l with
  | nil => simp [insertSorted]
  | cons y ys ih =>
    unfold insertSorted
    by_cases h : strLe x y = true
    · simp [h]
    · simp only [h, Bool.false_eq_true, if_false, List.mem_cons, ih]
      tauto

theorem mem_sortStrings (l : List String) (a : String) :
    a ∈ sortStrings l ↔ a ∈ l := by
  induction l with
  | nil => simp [sortStrings]
  | cons x xs ih =>
    show a ∈ insertSorted x (sortStrings xs) ↔ _
    rw [mem_insertSorted, ih]
    simp

end GoStr

namespace Controller

/-- **C10** (confirmed). While a negative-cache entry for an annotation map
is live, `parseAnnotations` returns a nil configuration together with a nil
error — not the original error — issuing no resolver call and leaving the
cache unchanged. -/
theorem claim10_negative_cache (env : EC2Env) (cache : Cache)
    (annotations : List (String × String))
    (h : (cacheGet cache (cacheKeyOf annotations)).isSome = true) :
    parseAnnotations env cache annotations = ⟨[], cache, none, none⟩ := by
  simp only [parseAnnotations]
  rw [if_pos h]

/-- Witness for C10 at a concrete input. -/
theorem claim10_witness :
    parseAnnotations envNamed cacheNegSample annSample = ⟨[], cacheNegSample, none, none⟩ :=
  claim10_negative_cache envNamed cacheNegSample annSample rfl

theorem find?_filter_ne (c : List (String × String)) (k v : String) (h : v ≠ k) :
    (c.filter (fun e => e.1 != k)).find? (fun e => e.1 == v) =
      c.find? (fun e => e.1 == v) := by
  induction c with
  | nil => rfl
  | cons e es ih =>
    by_cases he : e.1 = k
    · rw [List.filter_cons_of_neg (by simp [he]),
        List.find?_cons_of_neg _ (by simp [he]; exact Ne.symm h)]
      exact ih
    · rw [List.filter_cons_of_pos (by simp [he])]
      by_cases hv : e.1 = v
      · rw [List.find?_cons_of_pos _ (by simp [hv]), List.find?_cons_of_pos _ (by simp [hv])]
      · rw [List.find?_cons_of_neg _ (by simp [hv]), List.find?_cons_of_neg _ (by simp [hv])]
        exact ih

theorem cacheGet_cacheSet (c : Cache) (k val v : String) :
    cacheGet (cacheSet c k val) v = if v = k then some val else cacheGet c v := by
  by_cases h : v = k
  · subst h
    rw [if_pos rfl]
    show ((((v, val) :: _).find? (fun e => e.1 == v)).map (fun e => e.2)) = some val
    rw [List.find?_cons_of_pos _ (by simp)]
    rfl
  · rw [if_neg h]
    show ((((k, val) :: c.filter (fun e => e.1 != k)).find? (fun e => e.1 == v)).map
      (fun e => e.2)) = cacheGet c v
    rw [List.find?_cons_of_neg _ (by simp; exact Ne.symm h), find?_filter_ne c k v h]
    rfl

theorem cacheGet_collectNamedSubnets_isSome (found : List SubnetInfo) :
    ∀ (acc : Cache × List String) (v : String), (cacheGet acc.1 v).isSome = true →
      (cacheGet (collectNamedSubnets acc found).1 v).isSome = true := by
  induction found with
  | nil => intro acc v h; exact h
  | cons sub rest ih =>
    intro acc v h
    rw [collectNamedSubnets, List.foldl_cons]
    apply ih
    cases htag : tagsGet sub.tags "Name" with
    | none => simpa [htag] using h
    | some value =>
      simp only [htag]
      rw [cacheGet_cacheSet]
      by_cases hv : v = value
      · rw [if_pos hv]; rfl
      · rw [if_neg hv]; exact h

theorem cacheGet_collectNamedSubnets_complete (found : List SubnetInfo) :
    ∀ (acc : Cache × List String), ∀ sub ∈ found, ∀ v,
      tagsGet sub.tags "Name" = some v →
      (cacheGet (collectNamedSubnets acc found).1 v).isSome = true := by
  induction found with
  | nil => intro acc sub h; cases h
  | cons sub0 rest ih =>
    intro acc sub hmem v htag
    rw [collectNamedSubnets, List.foldl_cons]
    rcases List.mem_cons.mp hmem with rfl | hmem'
    · apply cacheGet_collectNamedSubnets_isSome
      simp only [htag]
      rw [cacheGet_cacheSet, if_pos rfl]
      rfl
    · exact ih _ sub hmem' v htag

theorem cacheGet_collectNamedSubnets_sound (found : List SubnetInfo) :
    ∀ (acc : Cache × List String) (v id : String),
      cacheGet (collectNamedSubnets acc found).1 v = some id →
      cacheGet acc.1 v = some id ∨
        ∃ sub ∈ found, sub.subnetId = id ∧ tagsGet sub.tags "Name" = some v := by
  induction found with
  | nil => intro acc v id h; exact Or.inl h
  | cons sub0 rest ih =>
    intro acc v id h
    rw [collectNamedSubnets, List.foldl_cons] at h
    rcases ih _ v id h with h' | ⟨sub, hmem, hid, htag⟩
    · cases htag : tagsGet sub0.tags "Name" with
      | none => simp only [htag] at h'; exact Or.inl h'
      | some value =>
        simp only [htag] at h'
        rw [cacheGet_cacheSet] at h'
        by_cases hv : v = value
        · rw [if_pos hv] at h'
          refine Or.inr ⟨sub0, List.mem_cons_self _ _, Option.some.inj h', ?_⟩
          rw [htag, hv]
        · rw [if_neg hv] at h'
          exact Or.inl h'
    · exact Or.inr ⟨sub, List.mem_cons_of_mem _ hmem, hid, htag⟩

theorem mem_collectNamedSubnets_out (found : List SubnetInfo) :
    ∀ (acc : Cache × List String) (x : String), x ∈ acc.2 →
      x ∈ (collectNamedSubnets acc found).2 := by
  induction found with
  | nil => intro acc x h; exact h
  | cons sub rest ih =>
    intro acc x h
    rw [collectNamedSubnets, List.foldl_cons]
    apply ih
    cases htag : tagsGet sub.tags "Name" with
    | none => simpa [htag] using h
    | some value => simp only [htag]; exact List.mem_append_left _ h

theorem describeSubnetsByNames_nil (env : EC2Env) : describeSubnetsByNames env [] = [] := by
  simp only [describeSubnetsByNames, List.filter_eq_nil_iff]
  intro sub _
  cases h : tagsGet sub.tags "Name" <;> simp [h]

theorem mem_classifySubnetTokens_of_prefix (cache : Cache) (tokens : List String)
    (t : String) (ht : t ∈ tokens) (hp : GoStr.hasPrefix t "subnet-" = true) :
    t ∈ (classifySubnetTokens cache tokens).1 := by
  induction tokens with
  | nil => cases ht
  | cons u us ih =>
    rcases List.mem_cons.mp ht with rfl | ht'
    · simp only [classifySubnetTokens, hp, if_true]
      exact List.mem_cons_self _ _
    · by_cases hu : GoStr.hasPrefix u "subnet-" = true
      · simp only [classifySubnetTokens, hu, if_true]
        exact List.mem_cons_of_mem _ (ih ht')
      · simp only [classifySubnetTokens, hu]
        cases hcg : cacheGet cache u with
        | none => simpa [hcg] using ih ht'
        | some id =>
          simp only [hcg, Bool.false_eq_true, if_false]
          exact List.mem_cons_of_mem _ (ih ht')

theorem parseSubnets_single_name_call (env : EC2Env) (cache : Cache) (s : String) :
    ((parseSubnets env cache s).calls.filter isSubnetNameLookup).length ≤ 1 := by
  simp only [parseSubnets]
  split
  · split <;> simp [isSubnetNameLookup]
  · split
    · split <;> split <;> simp [isSubnetNameLookup]
    · split <;> split <;> simp [isSubnetNameLookup]

theorem parseSubnets_name_call_eq (env : EC2Env) (cache : Cache) (s : String)
    (hok : describeSubnetsByIds env
      (classifySubnetTokens cache (stringToAwsSlice s)).1 = .ok ()) :
    (parseSubnets env cache s).calls.filter isSubnetNameLookup =
      (if (classifySubnetTokens cache (stringToAwsSlice s)).2.isEmpty then []
       else [EC2Call.describeSubnetsByNames
         (classifySubnetTokens cache (stringToAwsSlice s)).2]) := by
  simp only [parseSubnets]
  split
  · next e heq =>
    exfalso
    by_cases h0 : (classifySubnetTokens cache (stringToAwsSlice s)).1.isEmpty
    · rw [if_pos h0] at heq
      cases heq
    · rw [if_neg h0, hok] at heq
      cases heq
  · split
    · split <;> split <;> simp [isSubnetNameLookup]
    · split <;> split <;> simp [isSubnetNameLookup]

theorem parseSubnets_pass_through (env : EC2Env) (cache : Cache) (s : String)
    (out : List String) (h : (parseSubnets env cache s).result = .ok out) :
    ∀ t ∈ stringToAwsSlice s, GoStr.hasPrefix t "subnet-" = true → t ∈ out := by
  intro t ht hp
  have hcls := mem_classifySubnetTokens_of_prefix cache (stringToAwsSlice s) t ht hp
  simp only [parseSubnets] at h
  split at h
  · exact absurd h (by simp)
  · split at h
    · split at h
      · exact absurd h (by simp)
      · obtain rfl : GoStr.sortStrings (classifySubnetTokens cache (stringToAwsSlice s)).1
            = out := by simpa using h
        exact (GoStr.mem_sortStrings _ _).mpr hcls
    · split at h
      · exact absurd h (by simp)
      · obtain rfl : GoStr.sortStrings
            (collectNamedSubnets (cache, (classifySubnetTokens cache (stringToAwsSlice s)).1)
              (describeSubnetsByNames env
                (classifySubnetTokens cache (stringToAwsSlice s)).2)).2 = out := by
          simpa using h
        exact (GoStr.mem_sortStrings _ _).mpr
          (mem_collectNamedSubnets_out _ _ t hcls)

theorem parseSubnets_result_nonempty (env : EC2Env) (cache : Cache) (s : String)
    (out : List String) (h : (parseSubnets env cache s).result = .ok out) :
    out ≠ [] := by
  simp only [parseSubnets] at h
  split at h
  · exact absurd h (by simp)
  · split at h
    · split at h
      · exact absurd h (by simp)
      · next hne =>
        obtain rfl : GoStr.sortStrings (classifySubnetTokens cache (stringToAwsSlice s)).1
            = out := by simpa using h
        simpa [List.isEmpty_iff] using hne
    · split at h
      · exact absurd h (by simp)
      · next hne =>
        obtain rfl : GoStr.sortStrings
            (collectNamedSubnets (cache, (classifySubnetTokens cache (stringToAwsSlice s)).1)
              (describeSubnetsByNames env
                (classifySubnetTokens cache (stringToAwsSlice s)).2)).2 = out := by
          simpa using h
        simpa [List.isEmpty_iff] using hne

theorem parseSubnets_ids_exist (env : EC2Env) (cache : Cache) (s : String)
    (out : List String) (h : (parseSubnets env cache s).result = .ok out) :
    describeSubnetsByIds env (classifySubnetTokens cache (stringToAwsSlice s)).1 = .ok () := by
  simp only [parseSubnets] at h
  split at h
  · exact absurd h (by simp)
  · next u heq =>
    by_cases h0 : (classifySubnetTokens cache (stringToAwsSlice s)).1.isEmpty
    · rw [List.isEmpty_iff.mp h0]
      rfl
    · rw [if_neg h0] at heq
      cases u
      exact heq

theorem parseSubnets_cache_complete (env : EC2Env) (cache : Cache) (s : String)
    (out : List String) (h : (parseSubnets env cache s).result = .ok out) :
    ∀ sub ∈ describeSubnetsByNames env (classifySubnetTokens cache (stringToAwsSlice s)).2,
      ∀ v, tagsGet sub.tags "Name" = some v →
        (cacheGet (parseSubnets env cache s).cache v).isSome = true := by
  intro sub hsub v htag
  by_cases hN : (classifySubnetTokens cache (stringToAwsSlice s)).2.isEmpty
  · rw [List.isEmpty_iff.mp hN, describeSubnetsByNames_nil] at hsub
    cases hsub
  · have hcache : (parseSubnets env cache s).cache =
        (collectNamedSubnets (cache, (classifySubnetTokens cache (stringToAwsSlice s)).1)
          (describeSubnetsByNames env
            (classifySubnetTokens cache (stringToAwsSlice s)).2)).1 := by
      simp only [parseSubnets]
      split
      · next e heq =>
        exfalso
        by_cases h0 : (classifySubnetTokens cache (stringToAwsSlice s)).1.isEmpty
        · rw [if_pos h0] at heq
          cases heq
        · rw [if_neg h0, parseSubnets_ids_exist env cache s out h] at heq
          cases heq
      · rw [if_neg hN]
        split <;> rfl
    rw [hcache]
    exact cacheGet_collectNamedSubnets_complete _ _ sub hsub v htag

theorem parseSubnets_cache_sound (env : EC2Env) (cache : Cache) (s : String) :
    ∀ v id, cacheGet (parseSubnets env cache s).cache v = some id →
      cacheGet cache v = some id ∨
        ∃ sub ∈ env.subnets, sub.subnetId = id ∧ tagsGet sub.tags "Name" = some v := by
  intro v id h
  simp only [parseSubnets] at h
  split at h
  · exact Or.inl h
  · split at h
    · split at h <;> exact Or.inl h
    · have hsound : ∀ c : Cache, c =
          (collectNamedSubnets (cache, (classifySubnetTokens cache (stringToAwsSlice s)).1)
            (describeSubnetsByNames env
              (classifySubnetTokens cache (stringToAwsSlice s)).2)).1 →
          cacheGet c v = some id →
          cacheGet cache v = some id ∨
            ∃ sub ∈ env.subnets, sub.subnetId = id ∧ tagsGet sub.tags "Name" = some v := by
        rintro c rfl hc
        rcases cacheGet_collectNamedSubnets_sound _ _ v id hc with h' | ⟨sub, hmem, hid, htag⟩
        · exact Or.inl h'
        · exact Or.inr ⟨sub, (List.mem_filter.mp hmem).1, hid, htag⟩
      split at h <;> exact hsound _ rfl h

/-- **C7** (corrected; counterexample). Two pass-through subnets sitting in
the same availability zone resolve successfully: `parseSubnets` performs no
availability-zone validation at all. -/
theorem claim7_counterexample :
    (parseSubnets envSameAZ ([] : Cache) "subnet-a,subnet-b").result =
      .ok ["subnet-a", "subnet-b"] ∧
    azOf envSameAZ "subnet-a" = some "zone-1" ∧
    azOf envSameAZ "subnet-b" = some "zone-1" :=
  ⟨rfl, rfl, rfl⟩

/-- **C7** (amended). Subnet resolution maps every token with prefix
`subnet-` through unchanged, resolves the remaining uncached tokens as
tag-Name values via a single filtered list call (no such call when none
remain), stores each returned name-to-ID mapping in the process-wide cache
(an entry appears for every returned Name, and every new entry is a real
mapping), and fails with a descriptive error unless at least one subnet
resolves and all pass-through or cached subnet IDs exist; availability
zones are not validated. -/
theorem claim7_subnet_resolution (env : EC2Env) (cache : Cache) (s : String) :
    ((parseSubnets env cache s).calls.filter isSubnetNameLookup).length ≤ 1 ∧
    (describeSubnetsByIds env (classifySubnetTokens cache (stringToAwsSlice s)).1 = .ok () →
      (parseSubnets env cache s).calls.filter isSubnetNameLookup =
        (if (classifySubnetTokens cache (stringToAwsSlice s)).2.isEmpty then []
         else [EC2Call.describeSubnetsByNames
           (classifySubnetTokens cache (stringToAwsSlice s)).2])) ∧
    (∀ out, (parseSubnets env cache s).result = .ok out →
      (∀ t ∈ stringToAwsSlice s, GoStr.hasPrefix t "subnet-" = true → t ∈ out) ∧
      out ≠ [] ∧
      describeSubnetsByIds env (classifySubnetTokens cache (stringToAwsSlice s)).1 = .ok () ∧
      (∀ sub ∈ describeSubnetsByNames env
          (classifySubnetTokens cache (stringToAwsSlice s)).2,
        ∀ v, tagsGet sub.tags "Name" = some v →
          (cacheGet (parseSubnets env cache s).cache v).isSome = true)) ∧
    (∀ v id, cacheGet (parseSubnets env cache s).cache v = some id →
      cacheGet cache v = some id ∨
        ∃ sub ∈ env.subnets, sub.subnetId = id ∧ tagsGet sub.tags "Name" = some v) :=
  ⟨parseSubnets_single_name_call env cache s,
   parseSubnets_name_call_eq env cache s,
   fun out h => ⟨parseSubnets_pass_through env cache s out h,
     parseSubnets_result_nonempty env cache s out h,
     parseSubnets_ids_exist env cache s out h,
     parseSubnets_cache_complete env cache s out h⟩,
   parseSubnets_cache_sound env cache s⟩

/-- Witness for C7's amended theorem at a concrete input. -/
theorem claim7_witness :
    (parseSubnets envNamed ([] : Cache) "mysub").calls.filter isSubnetNameLookup =
      [EC2Call.describeSubnetsByNames ["mysub"]] :=
  (claim7_subnet_resolution envNamed ([] : Cache) "mysub").2.1 rfl

end Controller


namespace Rules

theorem buildRules_length (host : String) (paths : List String) (i : Nat) :
    (buildRules host i paths).length = paths.length := by
  induction paths generalizing i with
  | nil => rfl
  | cons p ps ih => simp [buildRules, ih]

theorem buildRules_priorities (host : String) (paths : List String) (i : Nat) :
    (buildRules host i paths).map (fun r => r.priority) =
      (List.range' i paths.length).map RulePriority.num := by
  induction paths generalizing i with
  | nil => rfl
  | cons p ps ih => simp [buildRules, List.range'_succ, ih]

theorem buildRules_conditions (host : String) (paths : List String) (i : Nat) :
    (buildRules host i paths).map (fun r => r.conditions) =
      paths.map (ruleConditions host) := by
  induction paths generalizing i with
  | nil => rfl
  | cons p ps ih => simp [buildRules, ih]

theorem buildRules_isDefault (host : String) (paths : List String) (i : Nat) :
    ∀ r ∈ buildRules host i paths, r.isDefault = false := by
  induction paths generalizing i with
  | nil => intro r hr; cases hr
  | cons p ps ih =>
    intro r hr
    rcases List.mem_cons.mp hr with rfl | hr
    · rfl
    · exact ih (i + 1) r hr

/-- **C8** (confirmed against the spec-modelled builder). For every
successful construction, the first rule is the default rule (priority
"default", no conditions), every later rule is non-default, the later
rules' priorities are exactly `1..N` — dense and distinct — and each later
rule's conditions are a `host-header` condition for the host (absent when
the host is empty) followed by a `path-pattern` condition for its path. -/
theorem claim8_desired_rules (host : String) (paths : List String)
    (rules : List DesiredRule) (h : NewDesiredRules host paths = .ok rules) :
    rules.head? = some ⟨true, .dflt, []⟩ ∧
    rules.length = paths.length + 1 ∧
    (∀ r ∈ rules.drop 1, r.isDefault = false) ∧
    (rules.drop 1).map (fun r => r.priority) =
      (List.range' 1 paths.length).map RulePriority.num ∧
    ((rules.drop 1).map (fun r => r.priority)).Nodup ∧
    (rules.drop 1).map (fun r => r.conditions) = paths.map (ruleConditions host) := by
  by_cases hp : paths.isEmpty
  · rw [NewDesiredRules, if_pos hp] at h
    exact absurd h (by simp)
  · rw [NewDesiredRules, if_neg hp] at h
    obtain rfl : (⟨true, .dflt, []⟩ : DesiredRule) :: buildRules host 1 paths = rules :=
      Except.ok.inj h
    refine ⟨rfl, by simp [buildRules_length], ?_, ?_, ?_, ?_⟩
    · simpa using buildRules_isDefault host paths 1
    · simpa using buildRules_priorities host paths 1
    · rw [List.drop_one, List.tail_cons, buildRules_priorities]
      exact List.Nodup.map (fun a b hab => RulePriority.num.inj hab) (List.nodup_range' ..)
    · simpa using buildRules_conditions host paths 1

/-- Witness for C8 at a concrete input. -/
theorem claim8_witness :
    (([⟨true, RulePriority.dflt, []⟩,
       ⟨false, RulePriority.num 1,
         [⟨"host-header", ["apex.example.com"]⟩, ⟨"path-pattern", ["/a"]⟩]⟩] :
        List DesiredRule)).head? = some ⟨true, RulePriority.dflt, []⟩ :=
  (claim8_desired_rules "apex.example.com" ["/a"] _ rfl).1

end Rules
